import Mathlib

/-!
Shallow embedding of the ecommerce backend's core: the stock reservation
store (`internal/repository` product repository), the cart service, the
order service (creation, status transitions, cancellation) and the payment
service, together with proofs about the claims of the specification.

Identifiers are `Nat` (standing for UUIDs), quantities and stock are `Int`
(Go `int`), prices and amounts are `ℚ` (SQL `DECIMAL(10,2)` / Go `float64`;
all amounts in the claims are exactly representable), timestamps are `Nat`
(unix seconds, as in `expiresAt int64`).  Each storage operation returns
its resulting database state together with an `Except` result, mirroring
Go's `(value, error)` returns; `pgx.ErrNoRows` is `Err.noRows`.
-/

namespace Ecom

/-- Order statuses, from `internal/models` (`OrderStatus` constants). -/
inductive OrderStatus
  | pending
  | processing
  | shipped
  | delivered
  | completed
  | cancelled
  | refunded
  | returnRequested
deriving DecidableEq, Repr

/-- Payment statuses, from `internal/models` (`PaymentStatus` constants). -/
inductive PaymentStatus
  | paymentPending
  | paymentProcessing
  | paymentCompleted
  | paymentFailed
  | paymentRefunded
deriving DecidableEq, Repr

/-- A row of the `products` table (fields that the core logic reads). -/
structure Product where
  id : Nat
  price : ℚ
  stock : Int
deriving DecidableEq, Repr

/-- A row of the `stock_reservations` table. -/
structure Reservation where
  productId : Nat
  cartId : Nat
  quantity : Int
  expiresAt : Nat
deriving DecidableEq, Repr

/-- A row of the `cart_items` table. -/
structure CartItem where
  id : Nat
  cartId : Nat
  productId : Nat
  quantity : Int
deriving DecidableEq, Repr

/-- A row of the `order_items` table (price snapshotted at order time). -/
structure OrderItem where
  productId : Nat
  quantity : Int
  priceAtTime : ℚ
deriving DecidableEq, Repr

/-- A row of the `orders` table with its items. -/
structure Order where
  id : Nat
  userId : Nat
  orderNumber : Nat
  totalAmount : ℚ
  status : OrderStatus
  paymentMethod : String
  items : List OrderItem
deriving DecidableEq, Repr

/-- A row of the `payments` table (fields the core logic reads). -/
structure Payment where
  orderId : Nat
  amount : ℚ
  status : PaymentStatus
  paymentMethod : String
deriving DecidableEq, Repr

/-- The relational store.  `carts` holds `(cartId, userId)` pairs
(`UNIQUE(user_id)`).  Newest rows are prepended, so `find?` on `payments`
matches the SQL `ORDER BY created_at DESC LIMIT 1`. -/
structure DB where
  products : List Product
  reservations : List Reservation
  carts : List (Nat × Nat)
  cartItems : List CartItem
  orders : List Order
  payments : List Payment
deriving DecidableEq, Repr

/-- Typed errors surfaced by the services.  `noRows` is `pgx.ErrNoRows`;
`storage` stands for an injected storage-level failure of a single
statement (used to express the spec's "if any step fails" clauses). -/
inductive Err
  | noRows
  | insufficientStock
  | emptyCart
  | cartInvalid
  | productNotFound
  | itemNotFound
  | orderNotFound
  | invalidTransition
  | unauthorized
  | notCancellable
  | paymentExists
  | storage
deriving DecidableEq, Repr

/-- A fresh identifier, not a member of the given list. -/
def freshNat (l : List Nat) : Nat := l.foldr max 0 + 1

def findProduct (db : DB) (pid : Nat) : Option Product :=
  db.products.find? (fun p => p.id == pid)

/-- The single `stock_reservations` row for `(productId, cartId)`
(`UNIQUE(product_id, cart_id)`); no expiry filter, as in the
`checkQuery` of `ReserveStock`. -/
def findReservation (db : DB) (pid cid : Nat) : Option Reservation :=
  db.reservations.find? (fun r => r.productId == pid && r.cartId == cid)

def findOrder (db : DB) (oid : Nat) : Option Order :=
  db.orders.find? (fun o => o.id == oid)

/-- `paymentRepo.GetByOrderID` row lookup (latest first). -/
def findPayment (db : DB) (oid : Nat) : Option Payment :=
  db.payments.find? (fun p => p.orderId == oid)

/-- `SUM(sr.quantity)` over reservations of a product satisfying
`expires_at > NOW()` (the `COALESCE(.., 0)` is the `0` of the empty sum). -/
def sumUnexpired (rs : List Reservation) (pid : Nat) (now : Nat) : Int :=
  ((rs.filter (fun r => r.productId == pid && decide (now < r.expiresAt))).map
    (fun r => r.quantity)).sum

/-- `productRepository.GetAvailableStock`: ledger quantity minus unexpired
holds; the query returns no rows when the product does not exist. -/
def getAvailableStock (db : DB) (pid : Nat) (now : Nat) : Except Err Int :=
  match findProduct db pid with
  | none => .error .noRows
  | some p => .ok (p.stock - sumUnexpired db.reservations pid now)

/-- Available stock as the services read it on known-present products. -/
def availOf (db : DB) (pid : Nat) (now : Nat) : Int :=
  match findProduct db pid with
  | none => 0
  | some p => p.stock - sumUnexpired db.reservations pid now

/-- `productRepository.ReserveStock`.  If a `(product, cart)` row exists
(read with no expiry filter), the availability check recomputes
`stock_quantity - SUM(unexpired) + own-row quantity`, where the own-row
subselect carries **no** `expires_at > NOW()` condition; on the missing
product the `availQuery` returns no rows, the Go scan target stays `0` and
the `ErrNoRows` is tolerated.  Otherwise the guarded `INSERT .. SELECT`
inserts when `stock_quantity - SUM(unexpired) >= quantity` and surfaces
`ErrNoRows` (reported as insufficient stock) when it inserts nothing. -/
def reserveStock (db : DB) (pid cid : Nat) (quantity : Int) (expiresAt now : Nat) :
    DB × Except Err Unit :=
  match findReservation db pid cid with
  | some r =>
    let newTotalQuantity := r.quantity + quantity
    let available : Int :=
      match findProduct db pid with
      | some p => p.stock - sumUnexpired db.reservations pid now + r.quantity
      | none => 0
    if available < newTotalQuantity then (db, .error .insufficientStock)
    else
      ({ db with reservations := db.reservations.map (fun s =>
          if s.productId == pid && s.cartId == cid then
            { s with quantity := newTotalQuantity, expiresAt := expiresAt }
          else s) }, .ok ())
  | none =>
    match findProduct db pid with
    | none => (db, .error .insufficientStock)
    | some p =>
      if p.stock - sumUnexpired db.reservations pid now ≥ quantity then
        ({ db with reservations :=
            { productId := pid, cartId := cid, quantity := quantity,
              expiresAt := expiresAt } :: db.reservations }, .ok ())
      else (db, .error .insufficientStock)

/-- `productRepository.ReleaseStockReservation`: unconditional delete. -/
def releaseStockReservation (db : DB) (pid cid : Nat) : DB :=
  { db with reservations :=
      db.reservations.filter (fun r => !(r.productId == pid && r.cartId == cid)) }

/-- `productRepository.UpdateStock` (pool): guarded
`stock_quantity = stock_quantity + delta` with `stock_quantity + delta >= 0`;
the `RETURNING` scan fails with no rows when the product is missing or the
floor check rejects the update. -/
def updateStock (db : DB) (pid : Nat) (delta : Int) : DB × Except Err Int :=
  match findProduct db pid with
  | none => (db, .error .noRows)
  | some p =>
    if p.stock + delta ≥ 0 then
      ({ db with products := db.products.map (fun q =>
          if q.id == pid then { q with stock := q.stock + delta } else q) },
       .ok (p.stock + delta))
    else (db, .error .noRows)

/-- `orderRepository.UpdateStatus` as a pure write (the row exists at every
call site that does not ignore the error). -/
def setOrderStatus (db : DB) (oid : Nat) (status : OrderStatus) : DB :=
  { db with orders := db.orders.map (fun o =>
      if o.id == oid then { o with status := status } else o) }

/-- `cartRepository.GetByUserID`: find the user's cart, creating an empty
one if none exists (lazy creation on first read). -/
def getByUserID (db : DB) (uid : Nat) : DB × Nat :=
  match db.carts.find? (fun c => c.2 == uid) with
  | some c => (db, c.1)
  | none =>
    let cid := freshNat (db.carts.map (fun c => c.1))
    ({ db with carts := (cid, uid) :: db.carts }, cid)

/-- A cart line as loaded by `GetCartWithItems`: the `JOIN products` drops
lines of deleted products and snapshots the current price. -/
structure LoadedItem where
  id : Nat
  productId : Nat
  quantity : Int
  price : ℚ
deriving DecidableEq, Repr

/-- `cartRepository.GetCartWithItems` restricted to what the services use. -/
def loadItems (db : DB) (cid : Nat) : List LoadedItem :=
  db.cartItems.filterMap (fun ci =>
    if ci.cartId == cid then
      (findProduct db ci.productId).map (fun p =>
        { id := ci.id, productId := ci.productId, quantity := ci.quantity,
          price := p.price })
    else none)

/-- `cartRepository.AddItem`: merge into the existing `(cart, product)` row
or insert a new one. -/
def addItem (db : DB) (cid pid : Nat) (quantity : Int) : DB :=
  match db.cartItems.find? (fun ci => ci.cartId == cid && ci.productId == pid) with
  | some _ =>
    { db with cartItems := db.cartItems.map (fun ci =>
        if ci.cartId == cid && ci.productId == pid then
          { ci with quantity := ci.quantity + quantity }
        else ci) }
  | none =>
    { db with cartItems :=
        { id := freshNat (db.cartItems.map (fun ci => ci.id)), cartId := cid,
          productId := pid, quantity := quantity } :: db.cartItems }

/-- `cartRepository.UpdateItem`: set the quantity, `cart item not found`
when no row matches. -/
def updItem (db : DB) (cid itemId : Nat) (quantity : Int) : DB × Except Err Unit :=
  match db.cartItems.find? (fun ci => ci.id == itemId && ci.cartId == cid) with
  | none => (db, .error .itemNotFound)
  | some _ =>
    ({ db with cartItems := db.cartItems.map (fun ci =>
        if ci.id == itemId && ci.cartId == cid then { ci with quantity := quantity }
        else ci) }, .ok ())

/-- `cartRepository.RemoveItem`. -/
def removeItem (db : DB) (cid itemId : Nat) : DB × Except Err Unit :=
  match db.cartItems.find? (fun ci => ci.id == itemId && ci.cartId == cid) with
  | none => (db, .error .itemNotFound)
  | some _ =>
    ({ db with cartItems :=
        db.cartItems.filter (fun ci => !(ci.id == itemId && ci.cartId == cid)) },
     .ok ())

/-- `productService.ReserveStock`: TTL of 10 minutes (600 seconds). -/
def svcReserveStock (db : DB) (pid cid : Nat) (quantity : Int) (now : Nat) :
    DB × Except Err Unit :=
  reserveStock db pid cid quantity (now + 600) now

/-- `cartService.AddToCart`: product check, `CheckStock`, reservation, then
the cart-line merge. -/
def addToCart (db : DB) (uid pid : Nat) (quantity : Int) (now : Nat) :
    DB × Except Err Unit :=
  let s := getByUserID db uid
  match findProduct s.1 pid with
  | none => (s.1, .error .productNotFound)
  | some _ =>
    if availOf s.1 pid now ≥ quantity then
      let r := svcReserveStock s.1 pid s.2 quantity now
      match r.2 with
      | .error e => (r.1, .error e)
      | .ok _ => (addItem r.1 s.2 pid quantity, .ok ())
    else (s.1, .error .insufficientStock)

/-- `cartService.UpdateCartItem`: reserve the positive difference, or
release the hold entirely on a decrease, then write the cart line. -/
def updateCartItem (db : DB) (uid itemId : Nat) (reqQuantity : Int) (now : Nat) :
    DB × Except Err Unit :=
  let s := getByUserID db uid
  match (loadItems s.1 s.2).find? (fun i => i.id == itemId) with
  | none => (s.1, .error .itemNotFound)
  | some item =>
    let quantityDiff := reqQuantity - item.quantity
    if quantityDiff > 0 then
      if availOf s.1 item.productId now ≥ quantityDiff then
        let r := svcReserveStock s.1 item.productId s.2 quantityDiff now
        match r.2 with
        | .error e => (r.1, .error e)
        | .ok _ => updItem r.1 s.2 itemId reqQuantity
      else (s.1, .error .insufficientStock)
    else if quantityDiff < 0 then
      updItem (releaseStockReservation s.1 item.productId s.2) s.2 itemId reqQuantity
    else updItem s.1 s.2 itemId reqQuantity

/-- `cartService.RemoveFromCart`: release the hold, then delete the line. -/
def removeFromCart (db : DB) (uid itemId : Nat) : DB × Except Err Unit :=
  let s := getByUserID db uid
  match (loadItems s.1 s.2).find? (fun i => i.id == itemId) with
  | none => (s.1, .error .itemNotFound)
  | some item =>
    removeItem (releaseStockReservation s.1 item.productId s.2) s.2 itemId

/-- `cartService.ValidateCart`'s boolean outcome: every line passes
`CheckStock` against current available stock. -/
def cartValid (db : DB) (cid : Nat) (now : Nat) : Bool :=
  (loadItems db cid).all (fun i => decide (availOf db i.productId now ≥ i.quantity))

/-- `paymentService.CreatePaymentForOrder`: refuse when a payment row is
already present, insert the payment at the order's total, and for a
completed status write the order status to `processing`, ignoring that
write's error. -/
def createPaymentForOrder (db : DB) (oid : Nat) (method : String)
    (status : PaymentStatus) : DB × Except Err Unit :=
  match findOrder db oid with
  | none => (db, .error .orderNotFound)
  | some o =>
    match findPayment db oid with
    | some _ => (db, .error .paymentExists)
    | none =>
      let db1 := { db with payments :=
          { orderId := oid, amount := o.totalAmount, status := status,
            paymentMethod := method } :: db.payments }
      let db2 := if status == .paymentCompleted then setOrderStatus db1 oid .processing
                 else db1
      (db2, .ok ())

/-- `isValidStatusTransition`'s string-keyed map: `return_requested` has no
entry, so its `ok` lookup flag is false. -/
def transitionsFrom : OrderStatus → Option (List OrderStatus)
  | .pending => some [.processing, .cancelled]
  | .processing => some [.shipped, .cancelled]
  | .shipped => some [.delivered]
  | .delivered => some [.completed]
  | .completed => some []
  | .cancelled => some []
  | .refunded => some []
  | .returnRequested => none

/-- `isValidStatusTransition` from the order service. -/
def isValidStatusTransition (fr tgt : OrderStatus) : Bool :=
  match transitionsFrom fr with
  | none => false
  | some allowed => allowed.any (fun s => s == tgt)

/-- `orderService.UpdateOrderStatus`.  After a write to `delivered` on a
`cod` order it looks up the payment; the repository surfaces `ErrNoRows`
when none exists and the service returns that error (the payment-creation
branch is unreachable because a `nil` payment always comes with the
error). -/
def updateOrderStatus (db : DB) (oid : Nat) (status : OrderStatus) :
    DB × Except Err Unit :=
  match findOrder db oid with
  | none => (db, .error .orderNotFound)
  | some order =>
    if order.status == status then (db, .ok ())
    else if !isValidStatusTransition order.status status then
      (db, .error .invalidTransition)
    else
      let db1 := setOrderStatus db oid status
      if status == .delivered && order.paymentMethod == "cod" then
        match findPayment db1 oid with
        | none => (db1, .error .noRows)
        | some _ => (db1, .ok ())
      else (db1, .ok ())

/-- Stock restoration loop of `orderService.CancelOrder`: pool-level
`UpdateStock` per item, stopping at the first failure and keeping the
already-committed restorations. -/
def restoreLoop (db : DB) (items : List OrderItem) : DB × Except Err Unit :=
  match items with
  | [] => (db, .ok ())
  | i :: rest =>
    let r := updateStock db i.productId i.quantity
    match r.2 with
    | .error e => (r.1, .error e)
    | .ok _ => restoreLoop r.1 rest

/-- `orderService.CancelOrder`.  The Go code opens a transaction, but every
write inside (stock restorations, status update) runs on the pool, so they
commit immediately; `statusFault` injects a storage failure of the final
status `UPDATE`.  The order's items are loaded through a `JOIN products`. -/
def cancelOrder (db : DB) (oid uid : Nat) (statusFault : Bool) :
    DB × Except Err Unit :=
  match findOrder db oid with
  | none => (db, .error .orderNotFound)
  | some o =>
    if o.userId ≠ uid then (db, .error .unauthorized)
    else if o.status ≠ .pending ∧ o.status ≠ .processing then
      (db, .error .notCancellable)
    else
      let loaded := o.items.filter (fun i => (findProduct db i.productId).isSome)
      let r := restoreLoop db loaded
      match r.2 with
      | .error e => (r.1, .error e)
      | .ok _ =>
        if statusFault then (r.1, .error .storage)
        else (setOrderStatus r.1 oid .cancelled, .ok ())

/-- Injectable storage failures for single statements of `CreateOrder`
(order-row insert, cart-line delete, transaction commit). -/
structure OrderFaults where
  createRow : Bool
  clearItems : Bool
  commit : Bool
deriving DecidableEq, Repr

/-- The fault-free schedule. -/
def noFaults : OrderFaults := ⟨false, false, false⟩

/-- First half of `cartSvc.ClearCart` as invoked inside `CreateOrder`:
release every loaded line's reservation on the pool (errors ignored). -/
def releaseCartReservations (db : DB) (cid : Nat) (items : List LoadedItem) : DB :=
  { db with reservations := db.reservations.filter (fun r =>
      !(r.cartId == cid && items.any (fun i => i.productId == r.productId))) }

/-- Second half of `cartSvc.ClearCart`: delete the cart's lines. -/
def clearCartItems (db : DB) (cid : Nat) : DB :=
  { db with cartItems := db.cartItems.filter (fun ci => !(ci.cartId == cid)) }

/-- `tx.Commit`: the transaction's view of `products` replaces the pool's,
and the buffered order row (with its items) becomes visible. -/
def commitState (db : DB) (ps : List Product) (order : Order) : DB :=
  { db with products := ps, orders := order :: db.orders }

/-- The per-line body of `CreateOrder`'s transaction: accumulate the item
total and the order-line snapshot, then deduct stock on the transaction's
view of `products` (`UpdateStockWithTx`). -/
def deductLoop (ps : List Product) (items : List LoadedItem) (total : ℚ)
    (acc : List OrderItem) : Except Err (List Product × ℚ × List OrderItem) :=
  match items with
  | [] => .ok (ps, total, acc)
  | i :: rest =>
    let oi : OrderItem :=
      { productId := i.productId, quantity := i.quantity, priceAtTime := i.price }
    match ps.find? (fun p => p.id == i.productId) with
    | none => .error .noRows
    | some p =>
      if p.stock + (-i.quantity) ≥ 0 then
        deductLoop
          (ps.map (fun q => if q.id == i.productId then
              { q with stock := q.stock + (-i.quantity) } else q))
          rest (total + i.price * i.quantity) (acc ++ [oi])
      else .error .noRows

/-- `orderService.CreateOrder`.  Steps: load the cart (fail `emptyCart` on
no lines), validate it (fail `cartInvalid`), open a transaction and deduct
stock per line on the transaction's view, build the order, insert it in the
transaction, clear the cart on the **pool** (`cartSvc.ClearCart`: release
every line's reservation ignoring errors, then delete the cart's lines),
commit (replacing `products` with the transaction's view and appending the
order), and for card methods (`cc`/`dc`) create a completed payment, which
also writes the persisted status to `processing`.  A failure leaves the
transaction's writes discarded but keeps all pool writes made so far. -/
def createOrder (db : DB) (uid : Nat) (method : String) (now : Nat)
    (f : OrderFaults) : DB × Except Err Order :=
  let s := getByUserID db uid
  let db0 := s.1
  let cid := s.2
  let items := loadItems db0 cid
  if items.isEmpty then (db0, .error .emptyCart)
  else if !cartValid db0 cid now then (db0, .error .cartInvalid)
  else
    match deductLoop db0.products items 0 [] with
    | .error e => (db0, .error e)
    | .ok res =>
      let order : Order :=
        { id := freshNat (db0.orders.map (fun o => o.id)), userId := uid,
          orderNumber := now, totalAmount := res.2.1, status := .pending,
          paymentMethod := method, items := res.2.2 }
      if f.createRow then (db0, .error .storage)
      else
        let db1 := releaseCartReservations db0 cid items
        if f.clearItems then (db1, .error .storage)
        else
          let db2 := clearCartItems db1 cid
          if f.commit then (db2, .error .storage)
          else
            let db3 := commitState db2 res.1 order
            if method == "cc" || method == "dc" then
              let r := createPaymentForOrder db3 order.id method .paymentCompleted
              match r.2 with
              | .error e => (r.1, .error e)
              | .ok _ => (r.1, .ok order)
            else (db3, .ok order)

/-! ### Spec-side definitions, for comparison with the code

These two definitions follow the specification's words, not the source;
they are used to state the claims that compare the two. -/

/-- Modelled from the spec: the status-transition table of §4.4
("pending → processing, cancelled; processing → shipped, delivered,
completed, cancelled; shipped → delivered, completed; delivered →
completed, return_requested; completed → return_requested;
return_requested → refunded, delivered"). -/
def specAllowedTransition : OrderStatus → OrderStatus → Bool
  | .pending, t => t == .processing || t == .cancelled
  | .processing, t => t == .shipped || t == .delivered || t == .completed || t == .cancelled
  | .shipped, t => t == .delivered || t == .completed
  | .delivered, t => t == .completed || t == .returnRequested
  | .completed, t => t == .returnRequested
  | .returnRequested, t => t == .refunded || t == .delivered
  | _, _ => false

/-- Modelled from the spec: "all *other* carts' unexpired holds" on a
product — the sum the spec's §4.2 availability check subtracts. -/
def sumUnexpiredOthers (rs : List Reservation) (pid cid : Nat) (now : Nat) : Int :=
  ((rs.filter (fun r =>
      r.productId == pid && !(r.cartId == cid) && decide (now < r.expiresAt))).map
    (fun r => r.quantity)).sum

/-- Stock of a product in a `products` table, as an optional value. -/
def stockOf (ps : List Product) (pid : Nat) : Option Int :=
  (ps.find? (fun p => p.id == pid)).map (fun p => p.stock)

/-- Total quantity of a product over a list of loaded cart lines. -/
def sumQty (items : List LoadedItem) (pid : Nat) : Int :=
  ((items.filter (fun i => i.productId == pid)).map (fun i => i.quantity)).sum

/-- Total quantity of a product over a list of order lines. -/
def sumOrderQty (items : List OrderItem) (pid : Nat) : Int :=
  ((items.filter (fun i => i.productId == pid)).map (fun i => i.quantity)).sum

/-! ### Concrete states used by the claims -/

/-- Product 1 has ledger stock 10; cart 1 of user 1 holds a line of
quantity 5 whose reservation expired at time 600. -/
def dbOversell : DB :=
  { products := [{ id := 1, price := 10, stock := 10 }]
    reservations := [{ productId := 1, cartId := 1, quantity := 5, expiresAt := 600 }]
    carts := [(1, 1)]
    cartItems := [{ id := 10, cartId := 1, productId := 1, quantity := 5 }]
    orders := [], payments := [] }

/-- Ledger stock 10; cart 7 holds an expired reservation of quantity 5. -/
def dbExpiredHold : DB :=
  { products := [{ id := 1, price := 10, stock := 10 }]
    reservations := [{ productId := 1, cartId := 7, quantity := 5, expiresAt := 600 }]
    carts := [(7, 2)], cartItems := [], orders := [], payments := [] }

/-- A single order in status `processing`. -/
def dbProcessingOrder : DB :=
  { products := [], reservations := [], carts := [], cartItems := []
    orders := [{ id := 1, userId := 1, orderNumber := 0, totalAmount := 0,
                 status := .processing, paymentMethod := "cc", items := [] }]
    payments := [] }

/-- The spec's §8 two-line cart: P1 stock 10 with line quantity 5, P2
stock 3 with line quantity 5, no unexpired reservations. -/
def dbTwoLineCart : DB :=
  { products := [{ id := 1, price := 10, stock := 10 }, { id := 2, price := 5, stock := 3 }]
    reservations := []
    carts := [(1, 1)]
    cartItems := [{ id := 10, cartId := 1, productId := 1, quantity := 5 },
                  { id := 11, cartId := 1, productId := 2, quantity := 5 }]
    orders := [], payments := [] }

/-- The spec's §8 round-trip cart: one line (P1, quantity 2, price 10.00)
against ledger stock 10, with its matching unexpired reservation. -/
def dbOneLineCart : DB :=
  { products := [{ id := 1, price := 10, stock := 10 }]
    reservations := [{ productId := 1, cartId := 1, quantity := 2, expiresAt := 600 }]
    carts := [(1, 1)]
    cartItems := [{ id := 10, cartId := 1, productId := 1, quantity := 2 }]
    orders := [], payments := [] }

/-- A `processing` order of user 1 with one line (P1, quantity 3); P1's
ledger stock is 5. -/
def dbCancelScenario : DB :=
  { products := [{ id := 1, price := 10, stock := 5 }]
    reservations := [], carts := [], cartItems := []
    orders := [{ id := 1, userId := 1, orderNumber := 0, totalAmount := 30,
                 status := .processing, paymentMethod := "cod",
                 items := [{ productId := 1, quantity := 3, priceAtTime := 10 }] }]
    payments := [] }

/-- Cart 1 of user 1: line (P1, quantity 5) with a matching unexpired
reservation of quantity 5; ledger stock 10. -/
def dbMatchedCart : DB :=
  { products := [{ id := 1, price := 10, stock := 10 }]
    reservations := [{ productId := 1, cartId := 1, quantity := 5, expiresAt := 1000 }]
    carts := [(1, 1)]
    cartItems := [{ id := 10, cartId := 1, productId := 1, quantity := 5 }]
    orders := [], payments := [] }

/-- A `shipped` cash-on-delivery order with no payment row. -/
def dbShippedCod : DB :=
  { products := [], reservations := [], carts := [], cartItems := []
    orders := [{ id := 1, userId := 1, orderNumber := 0, totalAmount := 30,
                 status := .shipped, paymentMethod := "cod", items := [] }]
    payments := [] }

instance {e a : Type} [DecidableEq e] [DecidableEq a] : DecidableEq (Except e a) := by
  intro x y
  cases x <;> cases y
  case error.error u v =>
    exact if h : u = v then .isTrue (by rw [h]) else .isFalse (by simp [h])
  case error.ok u v => exact .isFalse (by simp)
  case ok.error u v => exact .isFalse (by simp)
  case ok.ok u v =>
    exact if h : u = v then .isTrue (by rw [h]) else .isFalse (by simp [h])

/-! ### C1 -/

/-- C1: the availability invariant is **violated** by the code.  In
`dbOversell` — ledger stock 10, one reservation of quantity 5 that expired
at time 600 — available stock is non-negative at every time, yet at time
601 `AddToCart` for 10 more units succeeds (the `ReserveStock` re-check
adds the cart's own hold back without an expiry filter), leaving available
stock at −5: a committed reservation drives available stock negative. -/
theorem c1_available_stock_driven_negative :
    (∀ t : Nat, 0 ≤ availOf dbOversell 1 t) ∧
    (addToCart dbOversell 1 1 10 601).2 = .ok () ∧
    getAvailableStock (addToCart dbOversell 1 1 10 601).1 1 601 = .ok (-5) := by
  refine ⟨?_, by decide, by decide⟩
  intro t
  by_cases h : t < 600 <;>
    simp [dbOversell, availOf, findProduct, sumUnexpired, List.filter, List.find?, h]

/-! ### C5 -/

/-- C5: cancellation is **not** atomic.  On the `processing` order of
`dbCancelScenario` (one line: product 1, quantity 3, ledger stock 5), a
storage failure of the status `UPDATE` leaves the call failing while the
stock restoration (5 → 8) is already committed and the status is still
`processing`: the restorations and the status write do not take effect
together, because every write of `CancelOrder` runs on the pool, outside
the transaction it opens. -/
theorem c5_cancel_partial_effect_on_failure :
    (cancelOrder dbCancelScenario 1 1 true).2 = .error .storage ∧
    (cancelOrder dbCancelScenario 1 1 true).1.products =
      [{ id := 1, price := 10, stock := 8 }] ∧
    (findOrder (cancelOrder dbCancelScenario 1 1 true).1 1).map (fun o => o.status) =
      some .processing := by
  refine ⟨by decide, by decide, by decide⟩

/-! ### Counterexamples for the corrected claims -/

/-- C2 counterexample: the spec's table allows `processing → delivered`,
but `UpdateOrderStatus` rejects it with `InvalidTransition` and leaves the
state unchanged — the code's table is smaller than the spec's. -/
theorem c2_counterexample :
    specAllowedTransition .processing .delivered = true ∧
    updateOrderStatus dbProcessingOrder 1 .delivered =
      (dbProcessingOrder, .error .invalidTransition) := by
  constructor <;> decide

/-- C3 counterexample: on the valid one-line cart of `dbOneLineCart`, a
failure of the cart-line delete inside the cart-clearing step makes
`CreateOrder` fail, yet the cart's reservation is already gone — the
release ran on the pool, outside the transaction, so a failing run does
not leave reservations as they were. -/
theorem c3_counterexample :
    (createOrder dbOneLineCart 1 "cod" 0 ⟨false, true, false⟩).2 = .error .storage ∧
    (createOrder dbOneLineCart 1 "cod" 0 ⟨false, true, false⟩).1.reservations = [] ∧
    dbOneLineCart.reservations ≠ [] := by
  refine ⟨by decide, by decide, by decide⟩

/-- C4 counterexample: in `dbExpiredHold` cart 7's own reservation
(quantity 5) has expired; by the claim the call for 10 more should fail
(ledger 10 minus other carts' unexpired holds is 10 < 15), but the code
adds the expired own hold back and the reservation succeeds. -/
theorem c4_counterexample :
    (reserveStock dbExpiredHold 1 7 10 1201 601).2 = .ok () ∧
    (findReservation dbExpiredHold 1 7).map (fun r => r.quantity) = some 5 ∧
    ¬(10 - sumUnexpiredOthers dbExpiredHold.reservations 1 7 601 ≥ 5 + 10) := by
  refine ⟨by decide, by decide, by decide⟩

/-- C6 counterexample: decreasing the matched line of `dbMatchedCart` from
quantity 5 to 3 succeeds, but deletes the reservation row entirely instead
of leaving a hold of 3 — the line no longer has a matching reservation. -/
theorem c6_counterexample :
    (updateCartItem dbMatchedCart 1 10 3 0).2 = .ok () ∧
    ((updateCartItem dbMatchedCart 1 10 3 0).1.cartItems.find?
        (fun ci => ci.id == 10 && ci.cartId == 1)).map (fun ci => ci.quantity) =
      some 3 ∧
    findReservation (updateCartItem dbMatchedCart 1 10 3 0).1 1 1 = none := by
  refine ⟨by decide, by decide, by decide⟩

/-- C10 counterexample: moving the `shipped` cash-on-delivery order of
`dbShippedCod` (no payment row) to `delivered` persists `delivered` and
then **fails** with the payment lookup's no-rows error; no payment is
created and the persisted status stays `delivered`, not `processing`. -/
theorem c10_counterexample :
    updateOrderStatus dbShippedCod 1 .delivered =
      (setOrderStatus dbShippedCod 1 .delivered, .error .noRows) ∧
    (findOrder (updateOrderStatus dbShippedCod 1 .delivered).1 1).map
      (fun o => o.status) = some .delivered ∧
    (updateOrderStatus dbShippedCod 1 .delivered).1.payments = [] := by
  refine ⟨by decide, by decide, by decide⟩

/-! ### Supporting lemmas -/


theorem find?_map_of_pred_inv {α : Type} (f : α → α) (p : α → Bool) (l : List α)
    (hf : ∀ x, p (f x) = p x) : (l.map f).find? p = (l.find? p).map f := by
  induction l with
  | nil => rfl
  | cons a l ih =>
    by_cases ha : p a = true
    · rw [List.map_cons, List.find?_cons_of_pos _ (by rw [hf]; exact ha),
        List.find?_cons_of_pos _ ha]
      rfl
    · rw [List.map_cons, List.find?_cons_of_neg _ (by rw [hf]; simpa using ha),
        List.find?_cons_of_neg _ (by simpa using ha), ih]

theorem le_foldr_max (l : List Nat) : ∀ x ∈ l, x ≤ l.foldr max 0 := by
  induction l with
  | nil => simp
  | cons a l ih =>
    intro x hx
    rcases List.mem_cons.mp hx with rfl | hx
    · exact Nat.le_max_left _ _
    · exact le_trans (ih x hx) (Nat.le_max_right _ _)

theorem freshNat_not_mem (l : List Nat) : freshNat l ∉ l := by
  intro h
  have := le_foldr_max l _ h
  simp only [freshNat] at this
  omega

theorem sumUnexpired_cons (a : Reservation) (l : List Reservation) (pid now : Nat) :
    sumUnexpired (a :: l) pid now =
      (if (a.productId == pid && decide (now < a.expiresAt)) = true then a.quantity
       else 0) + sumUnexpired l pid now := by
  by_cases h : (a.productId == pid && decide (now < a.expiresAt)) = true <;>
    simp [sumUnexpired, List.filter_cons, h]

theorem sumUnexpiredOthers_cons (a : Reservation) (l : List Reservation)
    (pid cid now : Nat) :
    sumUnexpiredOthers (a :: l) pid cid now =
      (if (a.productId == pid && !(a.cartId == cid) && decide (now < a.expiresAt)) = true
       then a.quantity else 0) + sumUnexpiredOthers l pid cid now := by
  by_cases h : (a.productId == pid && !(a.cartId == cid) && decide (now < a.expiresAt)) = true <;>
    simp [sumUnexpiredOthers, List.filter_cons, h]

theorem sumUnexpired_eq_others_of_no_own (rs : List Reservation) (pid cid now : Nat)
    (hu : rs.filter (fun s => s.productId == pid && s.cartId == cid) = []) :
    sumUnexpired rs pid now = sumUnexpiredOthers rs pid cid now := by
  induction rs with
  | nil => rfl
  | cons a l ih =>
    rw [List.filter_cons] at hu
    by_cases hown : (a.productId == pid && a.cartId == cid) = true
    · simp [hown] at hu
    · simp only [hown] at hu
      rw [sumUnexpired_cons, sumUnexpiredOthers_cons, ih (by simpa using hu)]
      congr 1
      by_cases hpid : (a.productId == pid) = true
      · have hcid : (a.cartId == cid) = false := by
          cases hc : a.cartId == cid
          · rfl
          · exact absurd (by simp [hpid, hc]) hown
        simp [hpid, hcid]
      · simp [hpid]

theorem sumUnexpired_split (rs : List Reservation) (pid cid now : Nat) (r : Reservation)
    (hu : rs.filter (fun s => s.productId == pid && s.cartId == cid) = [r]) :
    sumUnexpired rs pid now =
      sumUnexpiredOthers rs pid cid now + (if now < r.expiresAt then r.quantity else 0) := by
  induction rs with
  | nil => simp at hu
  | cons a l ih =>
    rw [List.filter_cons] at hu
    by_cases hown : (a.productId == pid && a.cartId == cid) = true
    · simp only [hown, if_true] at hu
      have har : a = r := (List.cons_eq_cons.mp hu).1
      have hl : l.filter (fun s => s.productId == pid && s.cartId == cid) = [] :=
        (List.cons_eq_cons.mp hu).2
      have hpid : (a.productId == pid) = true := by
        cases hp : a.productId == pid
        · simp [hp] at hown
        · rfl
      have hcid : (a.cartId == cid) = true := by
        cases hc : a.cartId == cid
        · simp [hc] at hown
        · rfl
      rw [sumUnexpired_cons, sumUnexpiredOthers_cons,
        sumUnexpired_eq_others_of_no_own l pid cid now hl, har]
      subst har
      simp only [hpid, hcid, Bool.not_true, Bool.and_false, Bool.false_and, if_false]
      by_cases hexp : now < a.expiresAt
      · simp [hexp]
        try ring
      · simp [hexp]
        try ring
    · simp only [hown, if_false] at hu
      rw [sumUnexpired_cons, sumUnexpiredOthers_cons, ih hu]
      have hc : (if (a.productId == pid && decide (now < a.expiresAt)) = true then a.quantity else 0) =
          (if (a.productId == pid && !(a.cartId == cid) && decide (now < a.expiresAt)) = true then a.quantity else 0) := by
        by_cases hpid : (a.productId == pid) = true
        · have hcid : (a.cartId == cid) = false := by
            cases hc : a.cartId == cid
            · rfl
            · exact absurd (by simp [hpid, hc]) hown
          simp [hpid, hcid]
        · simp [hpid]
      rw [hc]
      ring

theorem findOrder_setOrderStatus (db : DB) (oid : Nat) (st : OrderStatus) :
    findOrder (setOrderStatus db oid st) oid =
      (findOrder db oid).map (fun o => { o with status := st }) := by
  have hinv : ∀ x : Order, ((fun o : Order => o.id == oid)
      (if x.id == oid then { x with status := st } else x)) =
      ((fun o : Order => o.id == oid) x) := by
    intro x; by_cases hx : (x.id == oid) = true <;> simp [hx]
  simp only [findOrder, setOrderStatus]
  rw [find?_map_of_pred_inv _ _ _ hinv]
  cases h : List.find? (fun o => o.id == oid) db.orders
  · rfl
  · simp only [Option.map_some']
    rw [if_pos (List.find?_some h)]

/-- C4 (amended): characterization of `ReserveStock`.  With an existing
`(product, cart)` row of quantity `E` (read regardless of expiry), the call
succeeds exactly when `E + quantity` is at most ledger stock minus the
other carts' unexpired holds **plus the cart's own hold when it has
already expired** (the add-back subselect has no expiry filter); on success
the single row is updated to `E + quantity` with the refreshed expiry and
nothing else changes; with no existing row it succeeds exactly when the
requested quantity is at most ledger stock minus all unexpired holds,
inserting one row; otherwise it fails with insufficient stock and changes
nothing. -/
theorem c4_reserve_stock_characterization :
    ∀ db pid cid qty eAt now p, findProduct db pid = some p →
    ((∀ r, findReservation db pid cid = some r →
        db.reservations.filter (fun s => s.productId == pid && s.cartId == cid) = [r] →
        (((reserveStock db pid cid qty eAt now).2 = .ok ()) ↔
          r.quantity + qty ≤ p.stock - sumUnexpiredOthers db.reservations pid cid now +
            (if now < r.expiresAt then 0 else r.quantity)) ∧
        ((reserveStock db pid cid qty eAt now).2 = .ok () →
          findReservation (reserveStock db pid cid qty eAt now).1 pid cid =
            some { r with quantity := r.quantity + qty, expiresAt := eAt } ∧
          (reserveStock db pid cid qty eAt now).1.products = db.products ∧
          (reserveStock db pid cid qty eAt now).1.cartItems = db.cartItems) ∧
        (∀ e, (reserveStock db pid cid qty eAt now).2 = .error e →
          (reserveStock db pid cid qty eAt now).1 = db ∧ e = .insufficientStock)) ∧
     (findReservation db pid cid = none →
        (((reserveStock db pid cid qty eAt now).2 = .ok ()) ↔
          qty ≤ p.stock - sumUnexpired db.reservations pid now) ∧
        ((reserveStock db pid cid qty eAt now).2 = .ok () →
          findReservation (reserveStock db pid cid qty eAt now).1 pid cid =
            some { productId := pid, cartId := cid, quantity := qty, expiresAt := eAt }) ∧
        (∀ e, (reserveStock db pid cid qty eAt now).2 = .error e →
          (reserveStock db pid cid qty eAt now).1 = db ∧ e = .insufficientStock))) := by
  intro db pid cid qty eAt now p hp
  constructor
  · intro r hr hu
    have hsplit := sumUnexpired_split db.reservations pid cid now r hu
    simp only [reserveStock, hr, hp]
    by_cases hlt : p.stock - sumUnexpired db.reservations pid now + r.quantity < r.quantity + qty
    · rw [if_pos hlt]
      refine ⟨?_, by simp, by simp⟩
      simp only [hsplit] at hlt
      constructor
      · intro h; simp at h
      · intro h
        exfalso
        by_cases hexp : now < r.expiresAt <;> simp [hexp] at hlt h <;> omega
    · rw [if_neg hlt]
      refine ⟨?_, ?_, by simp⟩
      · simp only [hsplit] at hlt
        constructor
        · intro _
          by_cases hexp : now < r.expiresAt <;> simp [hexp] at hlt ⊢ <;> omega
        · intro _; rfl
      · intro _
        refine ⟨?_, rfl, rfl⟩
        have hinv : ∀ s : Reservation,
            ((fun s : Reservation => s.productId == pid && s.cartId == cid)
              (if s.productId == pid && s.cartId == cid then
                { s with quantity := r.quantity + qty, expiresAt := eAt } else s)) =
            ((fun s : Reservation => s.productId == pid && s.cartId == cid) s) := by
          intro s
          by_cases hs : (s.productId == pid && s.cartId == cid) = true <;> simp [hs]
        have := find?_map_of_pred_inv
          (fun s : Reservation => if s.productId == pid && s.cartId == cid then
            { s with quantity := r.quantity + qty, expiresAt := eAt } else s)
          (fun s : Reservation => s.productId == pid && s.cartId == cid)
          db.reservations hinv
        simp only [findReservation] at hr ⊢
        rw [this, hr]
        have hpr := List.find?_some hr
        simp only [Option.map_some']
        rw [if_pos hpr]
  · intro hnone
    simp only [reserveStock, hnone, hp]
    by_cases hge : p.stock - sumUnexpired db.reservations pid now ≥ qty
    · rw [if_pos hge]
      refine ⟨by constructor <;> intro <;> [omega; rfl], ?_, by simp⟩
      intro _
      simp only [findReservation]
      rw [List.find?_cons_of_pos]
      simp
    · rw [if_neg hge]
      refine ⟨?_, by simp, ?_⟩
      · constructor
        · intro h; simp at h
        · intro h; omega
      · intro e he
        simp at he
        simp [he]

/-- C2 (amended): the transition table the code enforces is strictly
smaller than the spec's: pending → processing/cancelled, processing →
shipped/cancelled, shipped → delivered, delivered → completed, and nothing
else (in particular `return_requested` has no outgoing edges).
`UpdateOrderStatus` is a successful no-op on an equal status, fails
`InvalidTransition` leaving the state unchanged on a disallowed pair, and
persists the new status on an allowed pair. -/
theorem c2_status_transition_table :
    (∀ fr tgt : OrderStatus, isValidStatusTransition fr tgt = true ↔
       ((fr = .pending ∧ (tgt = .processing ∨ tgt = .cancelled)) ∨
        (fr = .processing ∧ (tgt = .shipped ∨ tgt = .cancelled)) ∨
        (fr = .shipped ∧ tgt = .delivered) ∨
        (fr = .delivered ∧ tgt = .completed))) ∧
    (∀ db oid tgt o, findOrder db oid = some o →
       (o.status = tgt → updateOrderStatus db oid tgt = (db, .ok ())) ∧
       (o.status ≠ tgt → isValidStatusTransition o.status tgt = false →
         updateOrderStatus db oid tgt = (db, .error .invalidTransition)) ∧
       (o.status ≠ tgt → isValidStatusTransition o.status tgt = true →
         (findOrder (updateOrderStatus db oid tgt).1 oid).map (fun x => x.status) =
           some tgt)) := by
  constructor
  · intro fr tgt
    cases fr <;> cases tgt <;> decide
  · intro db oid tgt o ho
    refine ⟨?_, ?_, ?_⟩
    · intro hst
      simp [updateOrderStatus, ho, hst]
    · intro hne hval
      simp [updateOrderStatus, ho, hne, hval]
    · intro hne hval
      have h1 : (updateOrderStatus db oid tgt).1 = setOrderStatus db oid tgt := by
        simp only [updateOrderStatus, ho]
        rw [if_neg (by simpa using hne), if_neg (by simp [hval])]
        by_cases hcod : (tgt == .delivered && o.paymentMethod == "cod") = true
        · simp only [hcod, if_true]
          cases hfp : findPayment (setOrderStatus db oid tgt) oid <;> simp [hfp]
        · simp [hcod]
      rw [h1, findOrder_setOrderStatus, ho]
      rfl

/-- C10 (amended): moving a cash-on-delivery order with no payment row
into `delivered` persists `delivered` and then fails with the payment
lookup's no-rows error (`GetPaymentByOrderID` surfaces `pgx.ErrNoRows`);
no payment is created, no write-back to `processing` happens, and the
persisted status stays `delivered`. -/
theorem c10_cod_delivered_behavior : ∀ db oid o, findOrder db oid = some o →
    o.paymentMethod = "cod" → o.status = .shipped → findPayment db oid = none →
    updateOrderStatus db oid .delivered =
      (setOrderStatus db oid .delivered, .error .noRows) ∧
    (findOrder (updateOrderStatus db oid .delivered).1 oid).map (fun x => x.status) =
      some .delivered ∧
    (updateOrderStatus db oid .delivered).1.payments = db.payments := by
  intro db oid o ho hcod hst hnp
  have hfp : findPayment (setOrderStatus db oid .delivered) oid = none := hnp
  have h1 : updateOrderStatus db oid .delivered =
      (setOrderStatus db oid .delivered, .error .noRows) := by
    simp [updateOrderStatus, ho, hst, hcod, isValidStatusTransition, transitionsFrom, hfp]
  refine ⟨h1, ?_, ?_⟩
  · rw [h1, findOrder_setOrderStatus, ho]
    rfl
  · rw [h1]
    rfl

/-- C3 (amended): with the fault-free schedule, every failing run of
`CreateOrder` (empty cart, failed re-validation, failed stock deduction)
leaves the state exactly unchanged, and the spec's two-line scenario fails
`CartInvalid` with P1's available stock still 10; but a failure injected
into the cart-clearing or commit step is NOT covered (see the
counterexample): reservation release runs on the pool outside the
transaction. -/
theorem c3_rollback_behavior :
    (∀ db uid method now c0 e,
      db.carts.find? (fun c => c.2 == uid) = some c0 →
      (∀ p ∈ db.payments, p.orderId ∈ db.orders.map (fun o => o.id)) →
      (createOrder db uid method now noFaults).2 = .error e →
      (createOrder db uid method now noFaults).1 = db) ∧
    (createOrder dbTwoLineCart 1 "cod" 0 noFaults =
      (dbTwoLineCart, .error .cartInvalid) ∧
     getAvailableStock dbTwoLineCart 1 0 = .ok 10 ∧
     getAvailableStock (createOrder dbTwoLineCart 1 "cod" 0 noFaults).1 1 0 =
      .ok 10) := by
  refine ⟨?_, by decide, by decide, by decide⟩
  intro db uid method now c0 e hc hfk herr
  simp only [createOrder, getByUserID, hc] at herr ⊢
  by_cases hemp : (loadItems db c0.1).isEmpty = true
  · simp [hemp]
  · simp only [hemp] at herr ⊢
    by_cases hval : cartValid db c0.1 now = true
    · simp only [hval] at herr ⊢
      cases hdl : deductLoop db.products (loadItems db c0.1) 0 [] with
      | error e1 => simp [hdl]
      | ok res =>
        simp only [hdl, noFaults] at herr ⊢
        by_cases hcc : (method == "cc" || method == "dc") = true
        · simp only [hcc] at herr ⊢
          have hpnone : List.find?
              (fun p => p.orderId == freshNat (db.orders.map (fun o => o.id)))
              db.payments = none := by
            rw [List.find?_eq_none]
            intro x hx hxe
            exact freshNat_not_mem _ ((beq_iff_eq.mp hxe) ▸ hfk x hx)
          simp [createPaymentForOrder, findOrder, findPayment, hpnone,
            releaseCartReservations, clearCartItems, commitState] at herr
        · simp only [hcc] at herr ⊢
          simp at herr
    · simp [hval]

theorem createOrder_ok_shape (db : DB) (uid : Nat) (method : String) (now : Nat)
    (f : OrderFaults) (db2 : DB) (order : Order)
    (h : createOrder db uid method now f = (db2, .ok order)) :
    ∃ res : List Product × ℚ × List OrderItem,
      deductLoop (getByUserID db uid).1.products
        (loadItems (getByUserID db uid).1 (getByUserID db uid).2) 0 [] = .ok res ∧
      order = { id := freshNat ((getByUserID db uid).1.orders.map (fun o => o.id)),
                userId := uid, orderNumber := now, totalAmount := res.2.1,
                status := .pending, paymentMethod := method, items := res.2.2 } ∧
      (((method == "cc" || method == "dc") = false ∧
          db2 = commitState
            (clearCartItems
              (releaseCartReservations (getByUserID db uid).1 (getByUserID db uid).2
                (loadItems (getByUserID db uid).1 (getByUserID db uid).2))
              (getByUserID db uid).2)
            res.1 order) ∨
       ((method == "cc" || method == "dc") = true ∧
          createPaymentForOrder
            (commitState
              (clearCartItems
                (releaseCartReservations (getByUserID db uid).1 (getByUserID db uid).2
                  (loadItems (getByUserID db uid).1 (getByUserID db uid).2))
                (getByUserID db uid).2)
              res.1 order)
            order.id method .paymentCompleted = (db2, .ok ()))) := by
  simp only [createOrder] at h
  by_cases hemp : (loadItems (getByUserID db uid).1 (getByUserID db uid).2).isEmpty = true
  · simp [hemp] at h
  · simp only [hemp] at h
    by_cases hval : cartValid (getByUserID db uid).1 (getByUserID db uid).2 now = true
    · simp only [hval] at h
      cases hdl : deductLoop (getByUserID db uid).1.products
          (loadItems (getByUserID db uid).1 (getByUserID db uid).2) 0 [] with
      | error e1 => simp [hdl] at h
      | ok res =>
        simp only [hdl] at h
        by_cases hcr : f.createRow = true
        · simp [hcr] at h
        · by_cases hcl : f.clearItems = true
          · simp [hcr, hcl] at h
          · by_cases hcm : f.commit = true
            · simp [hcr, hcl, hcm] at h
            · simp only [hemp, hval, hcr, hcl, hcm, Bool.not_true, Bool.false_eq_true,
                if_false, if_true] at h
              by_cases hcc : (method == "cc" || method == "dc") = true
              · rw [if_pos hcc] at h
                cases hcp : (createPaymentForOrder
                    (commitState
                      (clearCartItems
                        (releaseCartReservations (getByUserID db uid).1 (getByUserID db uid).2
                          (loadItems (getByUserID db uid).1 (getByUserID db uid).2))
                        (getByUserID db uid).2)
                      res.1
                      { id := freshNat ((getByUserID db uid).1.orders.map (fun o => o.id)),
                        userId := uid, orderNumber := now, totalAmount := res.2.1,
                        status := .pending, paymentMethod := method, items := res.2.2 })
                    (freshNat ((getByUserID db uid).1.orders.map (fun o => o.id)))
                    method .paymentCompleted).2 with
                | error e1 =>
                  rw [hcp] at h
                  simp at h
                | ok u =>
                  rw [hcp] at h
                  simp only [Prod.mk.injEq, Except.ok.injEq] at h
                  obtain ⟨hdb2, horder⟩ := h
                  subst horder
                  refine ⟨res, rfl, rfl, Or.inr ⟨hcc, ?_⟩⟩
                  rw [Prod.ext_iff]
                  exact ⟨hdb2, by rw [hcp]⟩
              · rw [if_neg hcc] at h
                simp only [Prod.mk.injEq, Except.ok.injEq] at h
                obtain ⟨hdb2, horder⟩ := h
                subst horder
                exact ⟨res, rfl, rfl, Or.inl ⟨by simpa using hcc, hdb2.symm⟩⟩
    · simp [hval] at h

theorem commitState_findOrder (db : DB) (ps : List Product) (order : Order) :
    findOrder (commitState db ps order) order.id = some order := by
  simp [findOrder, commitState, List.find?_cons_of_pos]

theorem getByUserID_payments (db : DB) (uid : Nat) :
    (getByUserID db uid).1.payments = db.payments := by
  cases hgc : db.carts.find? (fun c => c.2 == uid) <;> simp [getByUserID, hgc]

/-- C7: after a successful `CreateOrder` with the card method `cc` a
completed payment row exists for the order and the persisted order status
is `processing`; with the deferred method `cod` no payment is created and
the persisted status remains `pending`. -/
theorem c7_payment_side_effect :
    (∀ db uid now db2 order,
       createOrder db uid "cc" now noFaults = (db2, .ok order) →
       findPayment db2 order.id =
         some { orderId := order.id, amount := order.totalAmount,
                status := .paymentCompleted, paymentMethod := "cc" } ∧
       (findOrder db2 order.id).map (fun o => o.status) = some .processing) ∧
    (∀ db uid now db2 order,
       createOrder db uid "cod" now noFaults = (db2, .ok order) →
       db2.payments = db.payments ∧
       (findOrder db2 order.id).map (fun o => o.status) = some .pending) := by
  constructor
  · intro db uid now db2 order h
    obtain ⟨res, hdl, horder, hdisj⟩ :=
      createOrder_ok_shape db uid "cc" now noFaults db2 order h
    rcases hdisj with ⟨hm, _⟩ | ⟨hm, hcp⟩
    · simp at hm
    · simp only [createPaymentForOrder, commitState_findOrder] at hcp
      cases hfp : findPayment
          (commitState
            (clearCartItems
              (releaseCartReservations (getByUserID db uid).1 (getByUserID db uid).2
                (loadItems (getByUserID db uid).1 (getByUserID db uid).2))
              (getByUserID db uid).2)
            res.1 order) order.id with
      | some pay =>
        rw [hfp] at hcp
        simp at hcp
      | none =>
        rw [hfp] at hcp
        simp only [beq_self_eq_true, if_true, Prod.mk.injEq] at hcp
        obtain ⟨hdb2, _⟩ := hcp
        constructor
        · rw [← hdb2]
          simp [findPayment, setOrderStatus, List.find?_cons_of_pos]
        · rw [← hdb2]
          rw [findOrder_setOrderStatus]
          simp [findPayment, findOrder, commitState, List.find?_cons_of_pos]
  · intro db uid now db2 order h
    obtain ⟨res, hdl, horder, hdisj⟩ :=
      createOrder_ok_shape db uid "cod" now noFaults db2 order h
    rcases hdisj with ⟨hm, hdb2⟩ | ⟨hm, _⟩
    · constructor
      · rw [hdb2]
        simp [commitState, clearCartItems, releaseCartReservations, getByUserID_payments]
      · rw [hdb2, commitState_findOrder, horder]
        rfl
    · simp at hm

theorem stockOf_map_deduct (ps : List Product) (pid0 : Nat) (q : Int) (pid : Nat) :
    stockOf (ps.map (fun p => if p.id == pid0 then { p with stock := p.stock + q } else p)) pid =
      (stockOf ps pid).map (fun s => s + (if (pid == pid0) = true then q else 0)) := by
  have hinv : ∀ x : Product, ((fun p : Product => p.id == pid)
      (if x.id == pid0 then { x with stock := x.stock + q } else x)) =
      ((fun p : Product => p.id == pid) x) := by
    intro x; by_cases hx : (x.id == pid0) = true <;> simp [hx]
  simp only [stockOf]
  rw [find?_map_of_pred_inv _ _ _ hinv]
  cases h : ps.find? (fun p => p.id == pid) with
  | none => rfl
  | some p =>
    have hpv : p.id = pid := by simpa using List.find?_some h
    simp only [Option.map_some']
    by_cases hp0 : (pid == pid0) = true
    · have hx : (p.id == pid0) = true := by rw [hpv]; exact hp0
      simp [hx, hp0]
    · have hx : (p.id == pid0) = false := by
        rw [hpv]; simpa using hp0
      simp [hx, hp0]

theorem sumQty_cons (i : LoadedItem) (rest : List LoadedItem) (pid : Nat) :
    sumQty (i :: rest) pid =
      (if (i.productId == pid) = true then i.quantity else 0) + sumQty rest pid := by
  by_cases h : (i.productId == pid) = true <;> simp [sumQty, List.filter_cons, h]

theorem sumQty_eq_zero (items : List LoadedItem) (pid : Nat)
    (h : ∀ i ∈ items, i.productId ≠ pid) : sumQty items pid = 0 := by
  induction items with
  | nil => rfl
  | cons i rest ih =>
    rw [sumQty_cons, ih (fun j hj => h j (List.mem_cons_of_mem _ hj))]
    have : (i.productId == pid) = false := by
      simpa using h i (List.mem_cons_self _ _)
    simp [this]

theorem sumQty_of_nodup (items : List LoadedItem)
    (h : (items.map (fun i => i.productId)).Nodup) :
    ∀ i ∈ items, sumQty items i.productId = i.quantity := by
  induction items with
  | nil => simp
  | cons j rest ih =>
    intro i hi
    rw [List.map_cons, List.nodup_cons] at h
    rcases List.mem_cons.mp hi with rfl | hi
    · rw [sumQty_cons]
      have hz : sumQty rest i.productId = 0 := by
        refine sumQty_eq_zero _ _ (fun k hk he => ?_)
        exact h.1 (he ▸ List.mem_map_of_mem (fun x => x.productId) hk)
      simp [hz]
    · have hne : (j.productId == i.productId) = false := by
        have : j.productId ≠ i.productId := by
          intro he
          exact h.1 (he ▸ List.mem_map_of_mem (fun x => x.productId) hi)
        simpa using this
      rw [sumQty_cons, hne]
      simp [ih h.2 i hi]

theorem deductLoop_ok (items : List LoadedItem) (ps : List Product) (t : ℚ)
    (acc : List OrderItem) (res : List Product × ℚ × List OrderItem)
    (h : deductLoop ps items t acc = .ok res) :
    res.2.1 = t + (items.map (fun i => i.price * (i.quantity : ℚ))).sum ∧
    res.2.2 = acc ++ items.map (fun i =>
      { productId := i.productId, quantity := i.quantity, priceAtTime := i.price }) ∧
    ∀ pid, stockOf res.1 pid = (stockOf ps pid).map (fun s => s - sumQty items pid) := by
  induction items generalizing ps t acc with
  | nil =>
    simp only [deductLoop] at h
    simp only [Except.ok.injEq] at h
    subst h
    refine ⟨by simp, by simp, ?_⟩
    intro pid
    simp only [sumQty, List.filter_nil, List.map_nil, List.sum_nil]
    cases hs : stockOf ps pid <;> simp
  | cons i rest ih =>
    simp only [deductLoop] at h
    cases hf : ps.find? (fun p => p.id == i.productId) with
    | none => rw [hf] at h; simp at h
    | some p =>
      simp only [hf] at h
      by_cases hge : p.stock + (-i.quantity) ≥ 0
      · rw [if_pos hge] at h
        obtain ⟨h1, h2, h3⟩ := ih _ _ _ h
        refine ⟨?_, ?_, ?_⟩
        · rw [h1]
          simp only [List.map_cons, List.sum_cons]
          ring
        · rw [h2]
          simp [List.map_cons]
        · intro pid
          rw [h3 pid, stockOf_map_deduct]
          cases hs : stockOf ps pid with
          | none => rfl
          | some s =>
            simp only [Option.map_some']
            rw [sumQty_cons]
            by_cases hp : pid = i.productId
            · subst hp
              simp only [beq_self_eq_true, eq_self_iff_true, if_true]
              simp only [Option.some.injEq]
              omega
            · have h1 : (pid == i.productId) = false := by simpa using hp
              have h2 : (i.productId == pid) = false := by
                simpa using (Ne.symm hp)
              simp only [h1, h2, Bool.false_eq_true, if_false]
              simp only [Option.some.injEq]
              omega
      · rw [if_neg hge] at h
        simp at h

theorem filter_filter_eq_nil {α : Type} (f g : α → Bool) (l : List α)
    (h : ∀ x ∈ l, f x = true → g x = false) : (l.filter f).filter g = [] := by
  induction l with
  | nil => rfl
  | cons a l ih =>
    rw [List.filter_cons]
    by_cases ha : f a = true
    · rw [if_pos ha, List.filter_cons, h a (List.mem_cons_self _ _) ha]
      simp only [Bool.false_eq_true, if_false]
      exact ih (fun x hx => h x (List.mem_cons_of_mem _ hx))
    · rw [if_neg ha]
      exact ih (fun x hx => h x (List.mem_cons_of_mem _ hx))

theorem getByUserID_products (db : DB) (uid : Nat) :
    (getByUserID db uid).1.products = db.products := by
  cases hgc : db.carts.find? (fun c => c.2 == uid) <;> simp [getByUserID, hgc]

theorem createPaymentForOrder_ok_fields (db : DB) (oid : Nat) (m : String)
    (st : PaymentStatus) (db2 : DB)
    (h : createPaymentForOrder db oid m st = (db2, .ok ())) :
    db2.products = db.products ∧ db2.reservations = db.reservations ∧
    db2.cartItems = db.cartItems := by
  simp only [createPaymentForOrder] at h
  cases hfo : findOrder db oid with
  | none => rw [hfo] at h; simp at h
  | some o =>
    simp only [hfo] at h
    cases hfp : findPayment db oid with
    | some pay => rw [hfp] at h; simp at h
    | none =>
      simp only [hfp] at h
      by_cases hst : (st == PaymentStatus.paymentCompleted) = true
      · simp only [hst, if_true] at h
        simp only [Prod.mk.injEq] at h
        rw [← h.1]
        simp [setOrderStatus]
      · simp only [hst, Bool.false_eq_true, if_false] at h
        simp only [Prod.mk.injEq] at h
        rw [← h.1]
        exact ⟨rfl, rfl, rfl⟩

/-- C8: a successful `CreateOrder` returns an order whose total is the sum
of snapshotted price × quantity over the cart's lines and whose status is
`pending`, deducts each line's quantity from its product's ledger stock
(lines on distinct products), and leaves the cart with no lines and no
reservations (every hold of the cart being on one of its lines). -/
theorem c8_create_order_roundtrip :
    ∀ db uid method now db2 order,
      ((loadItems (getByUserID db uid).1 (getByUserID db uid).2).map
        (fun i => i.productId)).Nodup →
      (∀ r ∈ (getByUserID db uid).1.reservations, r.cartId = (getByUserID db uid).2 →
        (loadItems (getByUserID db uid).1 (getByUserID db uid).2).any
          (fun i => i.productId == r.productId) = true) →
      createOrder db uid method now noFaults = (db2, .ok order) →
      order.totalAmount = ((loadItems (getByUserID db uid).1 (getByUserID db uid).2).map
          (fun i => i.price * (i.quantity : ℚ))).sum ∧
      order.status = .pending ∧
      order.items = (loadItems (getByUserID db uid).1 (getByUserID db uid).2).map
          (fun i => { productId := i.productId, quantity := i.quantity,
                      priceAtTime := i.price }) ∧
      (∀ i ∈ loadItems (getByUserID db uid).1 (getByUserID db uid).2,
        stockOf db2.products i.productId =
          (stockOf db.products i.productId).map (fun s => s - i.quantity)) ∧
      db2.cartItems.filter (fun ci => ci.cartId == (getByUserID db uid).2) = [] ∧
      db2.reservations.filter (fun r => r.cartId == (getByUserID db uid).2) = [] := by
  intro db uid method now db2 order hnd hres h
  obtain ⟨res, hdl, horder, hdisj⟩ :=
    createOrder_ok_shape db uid method now noFaults db2 order h
  obtain ⟨htot, hitems, hstock⟩ := deductLoop_ok _ _ _ _ _ hdl
  have hfields : db2.products = res.1 ∧
      db2.reservations = (releaseCartReservations (getByUserID db uid).1
        (getByUserID db uid).2
        (loadItems (getByUserID db uid).1 (getByUserID db uid).2)).reservations ∧
      db2.cartItems = (clearCartItems
        (releaseCartReservations (getByUserID db uid).1 (getByUserID db uid).2
          (loadItems (getByUserID db uid).1 (getByUserID db uid).2))
        (getByUserID db uid).2).cartItems := by
    rcases hdisj with ⟨hm, hdb2⟩ | ⟨hm, hcp⟩
    · rw [hdb2]
      exact ⟨rfl, rfl, rfl⟩
    · obtain ⟨hp, hr, hc⟩ := createPaymentForOrder_ok_fields _ _ _ _ _ hcp
      exact ⟨hp, hr, hc⟩
  refine ⟨?_, ?_, ?_, ?_, ?_, ?_⟩
  · rw [horder]
    simpa using htot
  · rw [horder]
  · rw [horder]
    simpa using hitems
  · intro i hi
    rw [hfields.1, hstock i.productId, ← getByUserID_products db uid,
      sumQty_of_nodup _ hnd i hi]
  · rw [hfields.2.2]
    simp only [clearCartItems]
    exact filter_filter_eq_nil _ _ _ (by
      intro x hx hfx
      cases hcid : x.cartId == (getByUserID db uid).2
      · rfl
      · rw [hcid] at hfx
        simp at hfx)
  · rw [hfields.2.1]
    simp only [releaseCartReservations]
    refine filter_filter_eq_nil _ _ _ (fun r hr hfr => ?_)
    cases hcid : r.cartId == (getByUserID db uid).2
    · rfl
    · have hany := hres r hr (by simpa using hcid)
      rw [hcid, hany] at hfr
      simp at hfr

theorem sumOrderQty_cons (i : OrderItem) (rest : List OrderItem) (pid : Nat) :
    sumOrderQty (i :: rest) pid =
      (if (i.productId == pid) = true then i.quantity else 0) + sumOrderQty rest pid := by
  by_cases h : (i.productId == pid) = true <;> simp [sumOrderQty, List.filter_cons, h]

theorem sumOrderQty_eq_zero (items : List OrderItem) (pid : Nat)
    (h : ∀ i ∈ items, i.productId ≠ pid) : sumOrderQty items pid = 0 := by
  induction items with
  | nil => rfl
  | cons i rest ih =>
    rw [sumOrderQty_cons, ih (fun j hj => h j (List.mem_cons_of_mem _ hj))]
    have : (i.productId == pid) = false := by
      simpa using h i (List.mem_cons_self _ _)
    simp [this]

theorem sumOrderQty_of_nodup (items : List OrderItem)
    (h : (items.map (fun i => i.productId)).Nodup) :
    ∀ i ∈ items, sumOrderQty items i.productId = i.quantity := by
  induction items with
  | nil => simp
  | cons j rest ih =>
    intro i hi
    rw [List.map_cons, List.nodup_cons] at h
    rcases List.mem_cons.mp hi with rfl | hi
    · rw [sumOrderQty_cons]
      have hz : sumOrderQty rest i.productId = 0 := by
        refine sumOrderQty_eq_zero _ _ (fun k hk he => ?_)
        exact h.1 (he ▸ List.mem_map_of_mem (fun x => x.productId) hk)
      simp [hz]
    · have hne : (j.productId == i.productId) = false := by
        have : j.productId ≠ i.productId := by
          intro he
          exact h.1 (he ▸ List.mem_map_of_mem (fun x => x.productId) hi)
        simpa using this
      rw [sumOrderQty_cons, hne]
      simp [ih h.2 i hi]

theorem restoreLoop_ok (items : List OrderItem) (db : DB)
    (hok : ∀ i ∈ items, 0 ≤ i.quantity ∧
      ∃ p, findProduct db i.productId = some p ∧ 0 ≤ p.stock) :
    (restoreLoop db items).2 = .ok () ∧
    (∀ pid, stockOf (restoreLoop db items).1.products pid =
      (stockOf db.products pid).map (fun s => s + sumOrderQty items pid)) ∧
    (restoreLoop db items).1.orders = db.orders ∧
    (restoreLoop db items).1.reservations = db.reservations ∧
    (restoreLoop db items).1.cartItems = db.cartItems ∧
    (restoreLoop db items).1.carts = db.carts ∧
    (restoreLoop db items).1.payments = db.payments := by
  induction items generalizing db with
  | nil =>
    refine ⟨rfl, ?_, rfl, rfl, rfl, rfl, rfl⟩
    intro pid
    simp only [restoreLoop, sumOrderQty, List.filter_nil, List.map_nil, List.sum_nil]
    cases hs : stockOf db.products pid <;> simp
  | cons i rest ih =>
    obtain ⟨hqi, p, hp, hps⟩ := hok i (List.mem_cons_self _ _)
    have hge : p.stock + i.quantity ≥ 0 := by omega
    have hred : restoreLoop db (i :: rest) =
        restoreLoop { db with products := db.products.map (fun q =>
          if q.id == i.productId then { q with stock := q.stock + i.quantity }
          else q) } rest := by
      simp only [restoreLoop, updateStock, hp, if_pos hge]
    have hok1 : ∀ j ∈ rest, 0 ≤ j.quantity ∧
        ∃ p1, findProduct { db with products := db.products.map (fun q =>
          if q.id == i.productId then { q with stock := q.stock + i.quantity }
          else q) } j.productId = some p1 ∧ 0 ≤ p1.stock := by
      intro j hj
      obtain ⟨hqj, pj, hpj, hpsj⟩ := hok j (List.mem_cons_of_mem _ hj)
      refine ⟨hqj, ?_⟩
      have hinv : ∀ x : Product, ((fun p : Product => p.id == j.productId)
          (if x.id == i.productId then { x with stock := x.stock + i.quantity } else x)) =
          ((fun p : Product => p.id == j.productId) x) := by
        intro x; by_cases hx : (x.id == i.productId) = true <;> simp [hx]
      simp only [findProduct] at hpj ⊢
      rw [find?_map_of_pred_inv _ _ _ hinv, hpj]
      simp only [Option.map_some']
      by_cases hx : (pj.id == i.productId) = true
      · exact ⟨_, rfl, by simp [hx]; omega⟩
      · refine ⟨_, rfl, ?_⟩
        rw [if_neg (by simpa using hx)]
        exact hpsj
    obtain ⟨h1, h2, h3, h4, h5, h6, h7⟩ := ih _ hok1
    rw [hred]
    refine ⟨h1, ?_, h3, h4, h5, h6, h7⟩
    intro pid
    rw [h2 pid]
    have := stockOf_map_deduct db.products i.productId i.quantity pid
    simp only [this]
    cases hs : stockOf db.products pid with
    | none => rfl
    | some s =>
      simp only [Option.map_some']
      rw [sumOrderQty_cons]
      by_cases hpq : pid = i.productId
      · subst hpq
        simp only [beq_self_eq_true, eq_self_iff_true, if_true]
        simp only [Option.some.injEq]
        omega
      · have hx1 : (pid == i.productId) = false := by simpa using hpq
        have hx2 : (i.productId == pid) = false := by simpa using (Ne.symm hpq)
        simp only [hx1, hx2, Bool.false_eq_true, if_false]
        simp only [Option.some.injEq]
        omega

/-- C9: `CancelOrder` fails `Unauthorized` for a non-owner and
`NotCancellable` when the status is neither `pending` nor `processing`;
on an owned `processing` order it succeeds, restores each line's quantity
into the ledger exactly once, persists `cancelled`, and a second
`CancelOrder` fails `NotCancellable` leaving the state untouched. -/
theorem c9_cancel_order_gating :
    ∀ db oid uid o, findOrder db oid = some o →
    (o.userId ≠ uid → cancelOrder db oid uid false = (db, .error .unauthorized)) ∧
    (o.userId = uid → o.status ≠ .pending → o.status ≠ .processing →
       cancelOrder db oid uid false = (db, .error .notCancellable)) ∧
    (o.userId = uid → o.status = .processing →
     (o.items.map (fun i => i.productId)).Nodup →
     (∀ i ∈ o.items, 0 ≤ i.quantity ∧
        ∃ p, findProduct db i.productId = some p ∧ 0 ≤ p.stock) →
       (cancelOrder db oid uid false).2 = .ok () ∧
       (∀ i ∈ o.items, stockOf (cancelOrder db oid uid false).1.products i.productId =
          (stockOf db.products i.productId).map (fun s => s + i.quantity)) ∧
       (findOrder (cancelOrder db oid uid false).1 oid).map (fun x => x.status) =
         some .cancelled ∧
       cancelOrder (cancelOrder db oid uid false).1 oid uid false =
         ((cancelOrder db oid uid false).1, .error .notCancellable)) := by
  intro db oid uid o ho
  refine ⟨?_, ?_, ?_⟩
  · intro hne
    simp [cancelOrder, ho, hne]
  · intro heq hnp hnpr
    simp [cancelOrder, ho, heq, hnp, hnpr]
  · intro heq hpr hnd hok
    have hloaded : o.items.filter (fun i => (findProduct db i.productId).isSome) =
        o.items := by
      rw [List.filter_eq_self]
      intro i hi
      obtain ⟨_, p, hp, _⟩ := hok i hi
      simp [hp]
    obtain ⟨h1, h2, h3, h4, h5, h6, h7⟩ := restoreLoop_ok o.items db hok
    have hcan : cancelOrder db oid uid false =
        (setOrderStatus (restoreLoop db o.items).1 oid .cancelled, .ok ()) := by
      simp only [cancelOrder, ho, heq, hpr]
      rw [if_neg (by simp), if_neg (by simp [hpr])]
      rw [hloaded]
      cases hrl : (restoreLoop db o.items).2 with
      | error e => rw [hrl] at h1; exact absurd h1 (by simp)
      | ok u => simp
    rw [hcan]
    have hfo2 : findOrder (setOrderStatus (restoreLoop db o.items).1 oid .cancelled) oid =
        some { o with status := .cancelled } := by
      rw [findOrder_setOrderStatus]
      have : findOrder (restoreLoop db o.items).1 oid = some o := by
        simp only [findOrder] at ho ⊢
        rw [h3, ho]
      rw [this]
      rfl
    refine ⟨rfl, ?_, ?_, ?_⟩
    · intro i hi
      have : stockOf (setOrderStatus (restoreLoop db o.items).1 oid .cancelled).products
          i.productId = stockOf (restoreLoop db o.items).1.products i.productId := by
        simp [setOrderStatus]
      rw [this, h2, sumOrderQty_of_nodup _ hnd i hi]
    · rw [hfo2]
      rfl
    · simp [cancelOrder, hfo2, heq]

theorem find?_filter_not {α : Type} (p : α → Bool) (l : List α) :
    (l.filter (fun x => !(p x))).find? p = none := by
  rw [List.find?_eq_none]
  intro x hx
  have h2 := (List.mem_filter.mp hx).2
  cases hp : p x
  · simp
  · rw [hp] at h2; simp at h2

theorem updItem_post (db : DB) (cid itemId : Nat) (q : Int) (row : CartItem)
    (hfind : db.cartItems.find? (fun ci => ci.id == itemId && ci.cartId == cid) =
      some row) :
    (updItem db cid itemId q).2 = .ok () ∧
    (updItem db cid itemId q).1.reservations = db.reservations ∧
    ((updItem db cid itemId q).1.cartItems.find?
      (fun ci => ci.id == itemId && ci.cartId == cid)).map (fun ci => ci.quantity) =
      some q := by
  have hinv : ∀ x : CartItem, ((fun ci : CartItem => ci.id == itemId && ci.cartId == cid)
      (if x.id == itemId && x.cartId == cid then { x with quantity := q } else x)) =
      ((fun ci : CartItem => ci.id == itemId && ci.cartId == cid) x) := by
    intro x; by_cases hx : (x.id == itemId && x.cartId == cid) = true <;> simp [hx]
  refine ⟨by simp only [updItem, hfind], by simp only [updItem, hfind], ?_⟩
  simp only [updItem, hfind]
  rw [find?_map_of_pred_inv _ _ _ hinv, hfind]
  simp only [Option.map_some']
  rw [if_pos (List.find?_some hfind)]

theorem find?_loadAux (db : DB) (cid itemId : Nat) (item : LoadedItem) :
    ∀ l : List CartItem,
      (l.filterMap (fun ci =>
        if ci.cartId == cid then
          (findProduct db ci.productId).map (fun p =>
            { id := ci.id, productId := ci.productId, quantity := ci.quantity,
              price := p.price })
        else none)).find? (fun i => i.id == itemId) = some item →
      ∃ ci ∈ l, ci.id = itemId ∧ ci.cartId = cid ∧
        ci.productId = item.productId ∧ ci.quantity = item.quantity := by
  intro l
  induction l with
  | nil => intro h; simp at h
  | cons a l ih =>
    intro h
    rw [List.filterMap_cons] at h
    by_cases hac : (a.cartId == cid) = true
    · rw [if_pos hac] at h
      cases hfp : findProduct db a.productId with
      | none =>
        rw [hfp] at h
        simp only [Option.map_none'] at h
        obtain ⟨ci, hm, hrest⟩ := ih h
        exact ⟨ci, List.mem_cons_of_mem _ hm, hrest⟩
      | some p =>
        rw [hfp] at h
        simp only [Option.map_some'] at h
        by_cases hid : (a.id == itemId) = true
        · rw [List.find?_cons_of_pos _ (by simpa using hid)] at h
          refine ⟨a, List.mem_cons_self _ _, by simpa using hid, by simpa using hac,
            ?_, ?_⟩
          · cases h; rfl
          · cases h; rfl
        · rw [List.find?_cons_of_neg _ (by simpa using hid)] at h
          obtain ⟨ci, hm, hrest⟩ := ih h
          exact ⟨ci, List.mem_cons_of_mem _ hm, hrest⟩
    · rw [if_neg hac] at h
      obtain ⟨ci, hm, hrest⟩ := ih h
      exact ⟨ci, List.mem_cons_of_mem _ hm, hrest⟩

theorem loadItems_find_cartItem (db : DB) (cid itemId : Nat) (item : LoadedItem)
    (h : (loadItems db cid).find? (fun i => i.id == itemId) = some item) :
    ∃ ci ∈ db.cartItems, ci.id = itemId ∧ ci.cartId = cid ∧
      ci.productId = item.productId ∧ ci.quantity = item.quantity :=
  find?_loadAux db cid itemId item db.cartItems h

/-- C6 (amended): for a cart line loaded by id: decreasing its quantity
succeeds but deletes the cart's reservation row for that product entirely,
leaving the line at the new quantity with no hold; increasing it (when a
reservation matching the old quantity exists and the call succeeds) leaves
the line and the hold both at the new quantity with a refreshed expiry;
removing the line deletes the line and its reservation together. -/
theorem c6_cart_mutation_reservations :
    ∀ db uid c0 itemId item req now,
      db.carts.find? (fun c => c.2 == uid) = some c0 →
      (loadItems db c0.1).find? (fun i => i.id == itemId) = some item →
      ((req < item.quantity →
          (updateCartItem db uid itemId req now).2 = .ok () ∧
          ((updateCartItem db uid itemId req now).1.cartItems.find?
            (fun ci => ci.id == itemId && ci.cartId == c0.1)).map
              (fun ci => ci.quantity) = some req ∧
          findReservation (updateCartItem db uid itemId req now).1
            item.productId c0.1 = none) ∧
       (∀ r, item.quantity < req →
          findReservation db item.productId c0.1 = some r →
          r.quantity = item.quantity →
          (updateCartItem db uid itemId req now).2 = .ok () →
          ((updateCartItem db uid itemId req now).1.cartItems.find?
            (fun ci => ci.id == itemId && ci.cartId == c0.1)).map
              (fun ci => ci.quantity) = some req ∧
          (findReservation (updateCartItem db uid itemId req now).1
            item.productId c0.1).map (fun x => (x.quantity, x.expiresAt)) =
            some (req, now + 600)) ∧
       ((removeFromCart db uid itemId).2 = .ok () ∧
        (removeFromCart db uid itemId).1.cartItems.find?
          (fun ci => ci.id == itemId && ci.cartId == c0.1) = none ∧
        findReservation (removeFromCart db uid itemId).1 item.productId c0.1 =
          none)) := by
  intro db uid c0 itemId item req now hc hitem
  obtain ⟨ci0, hmem, hciid, hcicart, hcipid, hciq⟩ :=
    loadItems_find_cartItem db c0.1 itemId item hitem
  have hfind : ∃ row, db.cartItems.find?
      (fun ci => ci.id == itemId && ci.cartId == c0.1) = some row := by
    cases hf : db.cartItems.find? (fun ci => ci.id == itemId && ci.cartId == c0.1) with
    | some row => exact ⟨row, rfl⟩
    | none =>
      have h0 := List.find?_eq_none.mp hf ci0 hmem
      simp [hciid, hcicart] at h0
  obtain ⟨row0, hrow0⟩ := hfind
  refine ⟨?_, ?_, ?_⟩
  · intro hlt
    have hdiff : ¬(req - item.quantity > 0) := by omega
    have hdiff2 : req - item.quantity < 0 := by omega
    simp only [updateCartItem, getByUserID, hc, hitem, if_neg hdiff, if_pos hdiff2]
    obtain ⟨hu1, hu2, hu3⟩ :=
      updItem_post (releaseStockReservation db item.productId c0.1) c0.1 itemId req
        row0 hrow0
    refine ⟨hu1, hu3, ?_⟩
    simp only [findReservation]
    rw [hu2]
    simp only [releaseStockReservation]
    exact find?_filter_not _ _
  · intro r hgt hr hrq hsucc
    have hdiff : req - item.quantity > 0 := by omega
    simp only [updateCartItem, getByUserID, hc, hitem, if_pos hdiff] at hsucc ⊢
    by_cases hav : availOf db item.productId now ≥ req - item.quantity
    · rw [if_pos hav] at hsucc ⊢
      simp only [svcReserveStock, reserveStock, hr] at hsucc ⊢
      by_cases hlt2 : (match findProduct db item.productId with
          | some p => p.stock - sumUnexpired db.reservations item.productId now + r.quantity
          | none => 0) < r.quantity + (req - item.quantity)
      · rw [if_pos hlt2] at hsucc
        simp at hsucc
      · rw [if_neg hlt2] at hsucc ⊢
        obtain ⟨hu1, hu2, hu3⟩ :=
          updItem_post ({ db with reservations := db.reservations.map (fun s =>
            if s.productId == item.productId && s.cartId == c0.1 then
              { s with quantity := r.quantity + (req - item.quantity), expiresAt := now + 600 }
            else s) } : DB) c0.1 itemId req row0 hrow0
        refine ⟨hu3, ?_⟩
        have hinv2 : ∀ x : Reservation,
            ((fun s : Reservation => s.productId == item.productId && s.cartId == c0.1)
              (if x.productId == item.productId && x.cartId == c0.1 then
                { x with quantity := r.quantity + (req - item.quantity), expiresAt := now + 600 }
              else x)) =
            ((fun s : Reservation => s.productId == item.productId &&
              s.cartId == c0.1) x) := by
          intro x
          by_cases hx : (x.productId == item.productId && x.cartId == c0.1) = true <;>
            simp [hx]
        simp only [findReservation, hu2]
        rw [find?_map_of_pred_inv _ _ _ hinv2]
        simp only [findReservation] at hr
        rw [hr]
        simp only [Option.map_some']
        rw [if_pos (List.find?_some hr)]
        simp only [Option.map_some', Option.some.injEq, Prod.mk.injEq]
        exact ⟨by omega, trivial⟩
    · rw [if_neg hav] at hsucc
      simp at hsucc
  · have hrow1 : (releaseStockReservation db item.productId c0.1).cartItems.find?
        (fun ci => ci.id == itemId && ci.cartId == c0.1) = some row0 := hrow0
    simp only [removeFromCart, getByUserID, hc, hitem, removeItem, hrow1]
    refine ⟨trivial, ?_, ?_⟩
    · exact find?_filter_not _ _
    · simp only [findReservation, releaseStockReservation]
      exact find?_filter_not _ _

/-! ### Witnesses instantiating the general theorems on concrete states -/

/-- C2 witness: `processing → shipped` is allowed by the code's table and
persists `shipped` on the concrete order of `dbProcessingOrder`. -/
theorem c2_witness :
    (findOrder (updateOrderStatus dbProcessingOrder 1 .shipped).1 1).map
      (fun x => x.status) = some .shipped :=
  (c2_status_transition_table.2 dbProcessingOrder 1 .shipped
    { id := 1, userId := 1, orderNumber := 0, totalAmount := 0,
      status := .processing, paymentMethod := "cc", items := [] }
    (by decide)).2.2 (by decide) (by decide)

/-- C3 witness: the failing two-line-cart run leaves the state equal to the
initial state. -/
theorem c3_witness :
    (createOrder dbTwoLineCart 1 "cod" 0 noFaults).1 = dbTwoLineCart :=
  c3_rollback_behavior.1 dbTwoLineCart 1 "cod" 0 (1, 1) .cartInvalid
    (by decide) (by decide) (by decide)

/-- C4 witness: merging 3 more units onto the unexpired hold of 5 in
`dbMatchedCart` succeeds and updates the single row to quantity 8 with the
new expiry. -/
theorem c4_witness :
    (reserveStock dbMatchedCart 1 1 3 600 0).2 = .ok () ∧
    findReservation (reserveStock dbMatchedCart 1 1 3 600 0).1 1 1 =
      some { productId := 1, cartId := 1, quantity := 8, expiresAt := 600 } := by
  have h := (c4_reserve_stock_characterization dbMatchedCart 1 1 3 600 0
      { id := 1, price := 10, stock := 10 } (by decide)).1
    { productId := 1, cartId := 1, quantity := 5, expiresAt := 1000 }
    (by decide) (by decide)
  have hok : (reserveStock dbMatchedCart 1 1 3 600 0).2 = .ok () :=
    h.1.mpr (by decide)
  exact ⟨hok, (h.2.1 hok).1⟩

/-- C6 witness: decreasing the matched line of `dbMatchedCart` from 5 to 4
succeeds and deletes the reservation row. -/
theorem c6_witness :
    (updateCartItem dbMatchedCart 1 10 4 0).2 = .ok () ∧
    findReservation (updateCartItem dbMatchedCart 1 10 4 0).1 1 1 = none := by
  have h := (c6_cart_mutation_reservations dbMatchedCart 1 (1, 1) 10
      { id := 10, productId := 1, quantity := 5, price := 10 } 4 0
      (by decide) (by decide)).1 (by decide)
  exact ⟨h.1, h.2.2⟩

/-- C7 witness: the card and cash runs of `CreateOrder` on `dbOneLineCart`
produce a completed payment with persisted status `processing`, and no
payment with persisted status `pending`, respectively. -/
theorem c7_witness :
    findPayment (createOrder dbOneLineCart 1 "cc" 0 noFaults).1 1 =
      some { orderId := 1, amount := 20, status := .paymentCompleted,
             paymentMethod := "cc" } ∧
    (findOrder (createOrder dbOneLineCart 1 "cod" 0 noFaults).1 1).map
      (fun o => o.status) = some .pending := by
  constructor
  · exact (c7_payment_side_effect.1 dbOneLineCart 1 0
      (createOrder dbOneLineCart 1 "cc" 0 noFaults).1
      { id := 1, userId := 1, orderNumber := 0, totalAmount := 20,
        status := .pending, paymentMethod := "cc",
        items := [{ productId := 1, quantity := 2, priceAtTime := 10 }] }
      (by with_unfolding_all rfl)).1
  · exact (c7_payment_side_effect.2 dbOneLineCart 1 0
      (createOrder dbOneLineCart 1 "cod" 0 noFaults).1
      { id := 1, userId := 1, orderNumber := 0, totalAmount := 20,
        status := .pending, paymentMethod := "cod",
        items := [{ productId := 1, quantity := 2, priceAtTime := 10 }] }
      (by with_unfolding_all rfl)).2

/-- C8 witness: the spec's single-line round trip on `dbOneLineCart`: the
order totals 20.00 with status pending, and P1's ledger stock becomes 8. -/
theorem c8_witness :
    (createOrder dbOneLineCart 1 "cod" 0 noFaults).2 =
      .ok { id := 1, userId := 1, orderNumber := 0, totalAmount := 20,
            status := .pending, paymentMethod := "cod",
            items := [{ productId := 1, quantity := 2, priceAtTime := 10 }] } ∧
    stockOf (createOrder dbOneLineCart 1 "cod" 0 noFaults).1.products 1 = some 8 := by
  have h := c8_create_order_roundtrip dbOneLineCart 1 "cod" 0
    (createOrder dbOneLineCart 1 "cod" 0 noFaults).1
    { id := 1, userId := 1, orderNumber := 0, totalAmount := 20,
      status := .pending, paymentMethod := "cod",
      items := [{ productId := 1, quantity := 2, priceAtTime := 10 }] }
    (by decide) (by decide) (by with_unfolding_all rfl)
  refine ⟨by with_unfolding_all rfl, ?_⟩
  have e1 := h.2.2.2.1 { id := 10, productId := 1, quantity := 2, price := 10 }
    (by decide)
  exact e1.trans (by decide)

/-- C9 witness: cancelling the `processing` order of `dbCancelScenario`
succeeds, and cancelling again fails `NotCancellable` without any change. -/
theorem c9_witness :
    (cancelOrder dbCancelScenario 1 1 false).2 = .ok () ∧
    cancelOrder (cancelOrder dbCancelScenario 1 1 false).1 1 1 false =
      ((cancelOrder dbCancelScenario 1 1 false).1, .error .notCancellable) := by
  have h := (c9_cancel_order_gating dbCancelScenario 1 1
      { id := 1, userId := 1, orderNumber := 0, totalAmount := 30,
        status := .processing, paymentMethod := "cod",
        items := [{ productId := 1, quantity := 3, priceAtTime := 10 }] }
      (by decide)).2.2 (by decide) (by decide) (by decide) (by
        intro i hi
        simp only [List.mem_singleton] at hi
        subst hi
        exact ⟨by decide, { id := 1, price := 10, stock := 5 }, by decide, by decide⟩)
  exact ⟨h.1, h.2.2.2⟩

/-- C10 witness: on `dbShippedCod` the delivered write persists but the
call fails with no payment created. -/
theorem c10_witness :
    (updateOrderStatus dbShippedCod 1 .delivered).1.payments =
      dbShippedCod.payments :=
  (c10_cod_delivered_behavior dbShippedCod 1
    { id := 1, userId := 1, orderNumber := 0, totalAmount := 30,
      status := .shipped, paymentMethod := "cod", items := [] }
    (by decide) (by decide) (by decide) (by decide)).2.2

end Ecom
